import Mathlib

/-!
Verification development for the asklurk multi-provider streaming aggregator
(`app.py`).  Text is modelled as `List Char`; machine integers do not occur
(all counters are Python bignums, modelled as `Nat`/`Int`).  The tiktoken
cl100k token counter is abstracted as character count: the spec treats the
ledger as an approximate governor, and only non-negativity and additivity of
costs are relevant to the properties below.
-/

set_option maxRecDepth 4000

namespace AskLurk

/-- Program text: Python `str` modelled as a list of characters. -/
abbrev Str := List Char

/-- Coerce a Lean string literal into the text model. -/
def str (s : String) : Str := s.data

/-- Token count `len(enc.encode(s))` abstracted as character count (approximate governor). -/
def encLen (s : Str) : Nat := s.length

/-- The constant `TOKEN_LIMIT = 300_000` (app.py line 9). -/
def TOKEN_LIMIT : Nat := 300000

/-- One entry of the `MODELS` dict (app.py lines 24-31). -/
structure ModelInfo where
  name : Str
  description : Str
deriving DecidableEq

/-- The `MODELS` dict (app.py lines 24-31), in insertion order. -/
def MODELS : List (Str × ModelInfo) :=
  [ (str "logic", ⟨str "LogicBot", str "analytical, structured, step-by-step"⟩),
    (str "creative", ⟨str "CreativeBot", str "poetic, metaphorical, emotional"⟩),
    (str "technical", ⟨str "TechBot", str "precise, detailed, code-focused"⟩),
    (str "concise", ⟨str "BriefBot", str "succinct, to-the-point, efficient"⟩),
    (str "friendly", ⟨str "FriendBot", str "warm, supportive, conversational"⟩),
    (str "expert", ⟨str "ExpertBot", str "comprehensive, authoritative, in-depth"⟩) ]

/-- The key list `MODELS.keys()` in insertion order. -/
def modelKeys : List Str := MODELS.map Prod.fst

/-- The `SYSTEM_PROMPTS` dict (app.py lines 34-41). -/
def SYSTEM_PROMPTS : List (Str × Str) :=
  [ (str "logic", str "You are LogicBot — analytical, structured, step-by-step. Provide clear, logical reasoning and systematic approaches."),
    (str "creative", str "You are CreativeBot — poetic, metaphorical, emotional. Use imaginative language and creative perspectives."),
    (str "technical", str "You are TechBot — highly technical, precise, focused on implementation details and code. Provide specific technical insights."),
    (str "concise", str "You are BriefBot — extremely concise, direct, and to-the-point. Avoid unnecessary words while maintaining clarity."),
    (str "friendly", str "You are FriendBot — warm, supportive, and conversational. Make the user feel comfortable with a friendly tone."),
    (str "expert", str "You are ExpertBot — comprehensive, authoritative, and in-depth. Provide thorough explanations with expert insights.") ]

/-- Python dict lookup `d[k]` / `d.get(k)`, as an `Option`. -/
def lookupStr {α : Type} (k : Str) : List (Str × α) → Option α
  | [] => none
  | (k2, v) :: rest => if k2 = k then some v else lookupStr k rest

/-- Python `k in d`. -/
def hasKey {α : Type} (k : Str) (l : List (Str × α)) : Bool :=
  (lookupStr k l).isSome

/-- Display name of a model id (`MODELS[k]["name"]`), empty if the id is unknown. -/
def nameOf (k : Str) : Str :=
  match lookupStr k MODELS with
  | some info => info.name
  | none => []

/-- Pattern `pat` occurs as a contiguous segment (substring) of `s`. -/
def SegIn (pat s : Str) : Prop := ∃ u v, s = u ++ (pat ++ v)

/-! ## The `/asklurk` endpoint (app.py lines 105-176) -/

/-- Outcome of one `/asklurk` request.  `crash` is an exception escaping the
handler (the `KeyError` of `MODELS[key]` inside the fallback loop), which
Flask turns into a 500 — no JSON body of the endpoint's own is produced. -/
inductive AskResp where
  | badRequest (best : Str) (error : Str)
  | okSynth (best : Str) (tokensUsed : Nat)
  | okFallback (best : Str) (error : Str)
  | crash
deriving DecidableEq

/-- The list `missing_models` of model ids absent from the answers mapping
(app.py line 112), in configuration order. -/
def missingModels (answers : List (Str × Str)) : List Str :=
  modelKeys.filter (fun k => !(hasKey k answers))

/-- One bold-labeled 200-character-excerpt block of the fallback (app.py
line 175), prepended to the already-built remainder. -/
def excerpt (info : ModelInfo) (txt : Str) (rest : Str) : Str :=
  str "**" ++ (info.name ++ (str "**: " ++ (txt.take 200 ++ (str "...\n\n" ++ rest))))

/-- The fallback loop over `answers.items()` (app.py lines 174-175).
`none` models the uncaught `KeyError` when a key of `answers` is not a key of
`MODELS`. -/
def fallbackEntries : List (Str × Str) → Option Str
  | [] => some []
  | (k, txt) :: rest =>
    match lookupStr k MODELS, fallbackEntries rest with
    | some info, some s => some (excerpt info txt s)
    | _, _ => none

/-- The full fallback response body (app.py lines 173-175). -/
def fallbackCombined (answers : List (Str × Str)) : Option Str :=
  match fallbackEntries answers with
  | some s => some (str "## AskLurk Synthesis\n\nBased on analysis of 6 AI models:\n\n" ++ s)
  | none => none

/-- The `/asklurk` handler (app.py lines 105-176).  `tokens` is the global
`tokens_used` on entry; `synth` is the outcome of the synthesis backend call
(`.ok best` on success, `.error e` when the call raises).  Returns the
response, the new `tokens_used`, and whether the synthesis backend was
invoked. -/
def asklurk (tokens : Nat) (answers : List (Str × Str)) (prompt : Str)
    (synth : Except Str Str) : AskResp × Nat × Bool :=
  let _merged := prompt
  let missing := missingModels answers
  if missing = [] then
    match synth with
    | .ok best => (.okSynth best (tokens + encLen best), tokens + encLen best, true)
    | .error _ =>
      match fallbackCombined answers with
      | some combined =>
        (.okFallback combined (str "AI synthesis failed, using combined view"), tokens, true)
      | none => (.crash, tokens, true)
  else
    (.badRequest [] (str "Missing responses from: " ++ List.intercalate (str ", ") missing),
      tokens, false)

/-! ## The `generate` generator and the `/stream` multiplexer (app.py 54-103, 230-286)

A Python generator is modelled as the list of its suspension steps: each
`next()` call applies a charge to the global `tokens_used` and then yields one
event.  The `done` event's payload is the global counter *at emission time*
(app.py line 99), so it is filled in by the multiplexer, not precomputed. -/

/-- The payload-independent shape of an event yielded by `generate`. -/
inductive StepEv where
  | delta (text : Str)
  | done
  | error (msg : Str)
deriving DecidableEq

/-- One `next()` call on a `generate` generator: the charge added to
`tokens_used` while resuming, and the event then yielded. -/
abbrev Step := Nat × StepEv

/-- An event of the merged `/stream` event stream. -/
inductive Event where
  | delta (bot : Str) (text : Str)
  | done (bot : Str) (tokens : Nat)
  | error (bot : Str) (msg : Str)
  | allDone (tokens : Nat)
deriving DecidableEq

/-- Attach the bot id and the current counter to a yielded step event. -/
def render (bot : Str) (t : Nat) : StepEv → Event
  | .delta s => .delta bot s
  | .done => .done bot t
  | .error m => .error bot m

/-- Behaviour of one provider's backend during one turn.
`earlyFault` is an exception before any token accounting (e.g. client
construction, app.py lines 57-60); `run chunks fault` streams `chunks` after
the prompt-cost charge and then either finishes (`none`, app.py lines 97-99)
or raises mid-stream (`some msg`, caught at app.py lines 101-103, in which
case the accumulated `bot_tokens` charge at line 98 never happens). -/
inductive Script where
  | earlyFault (msg : Str)
  | run (chunks : List Str) (fault : Option Str)
deriving DecidableEq

/-- Total `bot_tokens` accumulated over the streamed chunks (app.py line 91). -/
def botTotal (chunks : List Str) : Nat := (chunks.map encLen).sum

/-- The suspension steps of `generate(bot, system, user)` (app.py 54-103),
given the up-front prompt cost `p = len(enc.encode(system)) + len(enc.encode(user))`
charged at line 65. -/
def genSteps (p : Nat) : Script → List Step
  | .earlyFault m => [(0, .error m)]
  | .run [] none => [(p, .done)]
  | .run [] (some m) => [(p, .error m)]
  | .run (c :: cs) none =>
      (p, .delta c) :: (cs.map (fun x => (0, .delta x)) ++ [(botTotal (c :: cs), .done)])
  | .run (c :: cs) (some m) =>
      (p, .delta c) :: (cs.map (fun x => (0, .delta x)) ++ [(0, .error m)])

/-- One live generator of the `active_generators` list: its bot id and its
remaining suspension steps. -/
abbrev Gen := Str × List Step

/-- Result of one round of the polling loop. -/
structure PassOut where
  evs : List Event
  act : List Gen
  tok : Nat

/-- One round of `for bot_name, generator in active_generators[:]`
(app.py lines 260-273): every still-active generator is polled once in list
order; a generator with no steps left raises `StopIteration` and is removed
without emitting. -/
def muxPass : List Gen → Nat → PassOut
  | [], t => ⟨[], [], t⟩
  | (_, []) :: more, t => muxPass more t
  | (b, (c, ev) :: rest) :: more, t =>
      let t1 := t + c
      let o := muxPass more t1
      ⟨render b t1 ev :: o.evs, (b, rest) :: o.act, o.tok⟩

/-- Result of the whole polling loop. -/
structure RunOut where
  evs : List Event
  tok : Nat

/-- Termination measure of the loop: one pass removes exactly one step or one
exhausted generator per active entry. -/
def muxMeasure (l : List Gen) : Nat :=
  (l.map (fun g => g.2.length)).sum + l.length

/-- Fuelled form of the `while active_generators` loop (app.py lines 259-273). -/
def muxGo : Nat → List Gen → Nat → RunOut
  | 0, _, t => ⟨[], t⟩
  | _ + 1, [], t => ⟨[], t⟩
  | fuel + 1, g :: gs, t =>
      let o := muxPass (g :: gs) t
      let r := muxGo fuel o.act o.tok
      ⟨o.evs ++ r.evs, r.tok⟩

/-- The `while active_generators` loop: `muxMeasure` fuel always suffices. -/
def muxLoop (l : List Gen) (t : Nat) : RunOut :=
  muxGo (muxMeasure l) l t

/-- The `full_prompt` construction (app.py lines 244-246). -/
def fullPromptOf (prompt : Str) (fileUrls : List Str) : Str :=
  if fileUrls.isEmpty then prompt
  else prompt ++ (str "\n\n[User uploaded files: " ++ (List.intercalate (str ", ") fileUrls ++ str "]"))

/-- System prompt of a model id (`SYSTEM_PROMPTS[key]`). -/
def sysPromptOf (k : Str) : Str :=
  match lookupStr k SYSTEM_PROMPTS with
  | some s => s
  | none => []

/-- Prompt cost charged by `generate` at app.py line 65. -/
def promptCostOf (k : Str) (full : Str) : Nat :=
  encLen (sysPromptOf k) + encLen full

/-- The `generators` dict built at app.py lines 250-253, in `MODELS.keys()`
order, as the initial active list. -/
def initGens (full : Str) (scripts : Str → Script) : List Gen :=
  modelKeys.map (fun k => (k, genSteps (promptCostOf k full) (scripts k)))

/-- The events produced by `event_stream()` (app.py lines 248-276): the merged
stream followed by the final `all_done` message carrying `tokens_used`. -/
def dispatchEvents (full : Str) (scripts : Str → Script) (used : Nat) : List Event :=
  (muxLoop (initGens full scripts) used).evs ++ [.allDone (muxLoop (initGens full scripts) used).tok]

/-- Outcome of one `/stream` request. -/
inductive StreamResp where
  | badRequest (msg : Str)
  | tooMany (msg : Str)
  | okStream (events : List Event) (finalTokens : Nat) (adapterCalls : Nat)
deriving DecidableEq

/-- Decimal rendering of a number, for the 429 message. -/
def natStr (n : Nat) : Str := (Nat.repr n).data

/-- The 429 body `Token limit reached ({tokens_used}/{TOKEN_LIMIT})` (app.py line 241). -/
def tooManyMsg (used limit : Nat) : Str :=
  str "Token limit reached (" ++ (natStr used ++ (str "/" ++ (natStr limit ++ str ")")))

/-- The `/stream` handler (app.py lines 230-286), with the token limit as an
explicit parameter (the code compares against the constant `TOKEN_LIMIT`;
see `streamEndpoint`).  `used` is `tokens_used` on entry. -/
def streamEndpointL (limit used : Nat) (prompt : Str) (fileUrls : List Str)
    (scripts : Str → Script) : StreamResp :=
  if prompt.isEmpty && fileUrls.isEmpty then
    .badRequest (str "Empty prompt and no files provided")
  else if limit ≤ used then
    .tooMany (tooManyMsg used limit)
  else
    let full := fullPromptOf prompt fileUrls
    let r := muxLoop (initGens full scripts) used
    .okStream (r.evs ++ [.allDone r.tok]) r.tok modelKeys.length

/-- The `/stream` handler exactly as in the code (limit fixed to `TOKEN_LIMIT`). -/
def streamEndpoint (used : Nat) (prompt : Str) (fileUrls : List Str)
    (scripts : Str → Script) : StreamResp :=
  streamEndpointL TOKEN_LIMIT used prompt fileUrls scripts

/-- Events carried by a `/stream` response (none unless streaming started). -/
def eventsOf : StreamResp → List Event
  | .okStream es _ _ => es
  | _ => []

/-- Whether a `/stream` response is the 429 refusal. -/
def isRefusedS : StreamResp → Bool
  | .tooMany _ => true
  | _ => false

/-- Number of provider units started (Adapter invocations) by a `/stream` response. -/
def adapterCallsOf : StreamResp → Nat
  | .okStream _ _ n => n
  | _ => 0

/-- Final `tokens_used` after a `/stream` request that entered with `used`. -/
def streamFinalTokens (used : Nat) : StreamResp → Nat
  | .okStream _ tf _ => tf
  | _ => used

/-- Endpoint `GET /tokens` reports `remaining_tokens = TOKEN_LIMIT - tokens_used`
(app.py line 219), a Python int that may be negative. -/
def remainingTokens (used : Nat) : Int :=
  (TOKEN_LIMIT : Int) - (used : Int)

/-! ## Stream-event observations used by the claims -/

/-- Is this event a Done-or-Error terminal event of provider `bot`? -/
def isTermFor (bot : Str) : Event → Bool
  | .done b _ => decide (b = bot)
  | .error b _ => decide (b = bot)
  | _ => false

/-- Number of Done-or-Error terminal events of `bot` in a stream. -/
def countTermBot (bot : Str) (es : List Event) : Nat :=
  (es.filter (isTermFor bot)).length

/-- Is this the all-complete marker? -/
def isAllDoneEv : Event → Bool
  | .allDone _ => true
  | _ => false

/-- Number of all-complete markers in a stream. -/
def countAllDone (es : List Event) : Nat :=
  (es.filter isAllDoneEv).length

/-- Is this event a `done` event (of any provider)? -/
def isDoneEv : Event → Bool
  | .done _ _ => true
  | _ => false

/-- The provider id and shape of a per-provider event (`none` for the marker). -/
def eventKey : Event → Option (Str × StepEv)
  | .delta b s => some (b, .delta s)
  | .done b _ => some (b, .done)
  | .error b m => some (b, .error m)
  | .allDone _ => none

/-- The subsequence of `bot`'s events in a stream, with the global-counter
payload of `done` erased. -/
def botTrace (bot : Str) (es : List Event) : List StepEv :=
  es.filterMap (fun e =>
    match eventKey e with
    | some (b, ev) => if b = bot then some ev else none
    | none => none)

/-- The raw (payload-carrying) subsequence of `bot`'s events in a stream. -/
def rawBotEvents (bot : Str) (es : List Event) : List Event :=
  es.filter (fun e =>
    match eventKey e with
    | some (b, _) => decide (b = bot)
    | none => false)

/-- Is this step shape a Done-or-Error terminal? -/
def isTermEv : StepEv → Bool
  | .delta _ => false
  | .done => true
  | .error _ => true

/-- Terminal-step count of a step list. -/
def countTermSteps (steps : List Step) : Nat :=
  (steps.filter (fun s => isTermEv s.2)).length

/-- Sum, over the entries of an active list keyed `bot`, of their terminal steps. -/
def sumTermBot (bot : Str) : List Gen → Nat
  | [] => 0
  | (b, steps) :: more =>
      (if b = bot then countTermSteps steps else 0) + sumTermBot bot more

/-- Total of all charges still pending in an active list. -/
def chargesSteps (steps : List Step) : Nat := (steps.map Prod.fst).sum

/-- Total of all charges of all entries of an active list. -/
def totalCharges : List Gen → Nat
  | [] => 0
  | (_, steps) :: more => chargesSteps steps + totalCharges more

/-- Number of entries of an active list keyed `bot`. -/
def countKey (bot : Str) : List Gen → Nat
  | [] => 0
  | (b, _) :: more => (if b = bot then 1 else 0) + countKey bot more

/-- The step shapes still pending for `bot` in an active list, in order. -/
def botSteps (bot : Str) : List Gen → List StepEv
  | [] => []
  | (b, steps) :: more =>
      (if b = bot then steps.map Prod.snd else []) ++ botSteps bot more

/-! ## The shared-counter update model (app.py lines 65 and 98)

`tokens_used += c` on the bare module-global compiles to a load of the global,
an add, and a store; under `threaded=True` two requests may interleave those.
A charge by task `i` is the two atomic actions `read i` (load the global into
task `i`'s temporary) then `write i` (store temporary plus `c_i`). -/

/-- One atomic action of an unsynchronized `tokens_used += c`. -/
inductive RMWStep where
  | read (i : Nat)
  | write (i : Nat)
deriving DecidableEq

/-- Shared state: the global counter and each task's loaded temporary. -/
structure RMWState where
  used : Nat
  regs : List (Option Nat)
deriving DecidableEq

/-- Execute a schedule of atomic actions; `charges` gives each task's increment. -/
def rmwExec (charges : List Nat) : List RMWStep → RMWState → RMWState
  | [], st => st
  | .read i :: rest, st =>
      rmwExec charges rest { st with regs := st.regs.set i (some st.used) }
  | .write i :: rest, st =>
      match st.regs.getD i none with
      | some v => rmwExec charges rest { st with used := v + charges.getD i 0 }
      | none => rmwExec charges rest st

/-- How many times an action occurs in a schedule. -/
def countStep (s : RMWStep) (l : List RMWStep) : Nat :=
  (l.filter (fun x => decide (x = s))).length

/-- Index of the first occurrence of an action in a schedule. -/
def firstIdx (s : RMWStep) (l : List RMWStep) : Nat :=
  l.findIdx (fun x => decide (x = s))

/-- Schedule `sched` is an interleaving of `n` concurrent counter updates:
each task loads once and stores once, in that order. -/
def isInterleaving (n : Nat) (sched : List RMWStep) : Bool :=
  decide (sched.length = 2 * n) &&
  (List.range n).all (fun i =>
    decide (countStep (.read i) sched = 1) &&
    decide (countStep (.write i) sched = 1) &&
    decide (firstIdx (.read i) sched < firstIdx (.write i) sched))

/-- The lost-update interleaving of two concurrent charges. -/
def lostSched : List RMWStep := [.read 0, .read 1, .write 0, .write 1]

/-- A serial interleaving of the same two charges. -/
def serialSched : List RMWStep := [.read 0, .write 0, .read 1, .write 1]

/-! ## Concrete inputs used by witnesses and counterexamples -/

/-- Every provider streams one "ok" chunk and finishes. -/
def okRunScripts : Str → Script := fun _ => .run [str "ok"] none

/-- Every provider finishes with no output. -/
def quietScripts : Str → Script := fun _ => .run [] none

/-- Every provider faults before any token accounting. -/
def allFaultScripts : Str → Script := fun _ => .earlyFault (str "x")

/-- LogicBot streams one chunk and finishes; the others finish silently. -/
def runAScripts : Str → Script :=
  fun k => if k = str "logic" then .run [str "a"] none else .run [] none

/-- LogicBot faults early; the others behave exactly as in `runAScripts`. -/
def runBScripts : Str → Script :=
  fun k => if k = str "logic" then .earlyFault (str "boom") else .run [] none

/-- Modelled from the spec: the estimated request cost of a dispatch
("proportional to prompt length") — the code has no such estimate, which is
what the admission counterexample exhibits. -/
def estimatedCost (prompt : Str) (fileUrls : List Str) : Nat :=
  encLen (fullPromptOf prompt fileUrls)

/-- A prompt longer than the whole token budget. -/
def bigPrompt : Str := 'x' :: List.replicate 300000 'a'

/-- A complete answer set: one short answer per configured model id. -/
def sixAnswers : List (Str × Str) :=
  [ (str "logic", str "foo-logic"),
    (str "creative", str "foo-creative"),
    (str "technical", str "foo-technical"),
    (str "concise", str "foo-concise"),
    (str "friendly", str "foo-friendly"),
    (str "expert", str "foo-expert") ]

/-- The complete answer set plus one extra key that is not a model id. -/
def extraAnswers : List (Str × Str) :=
  sixAnswers ++ [(str "mystery", str "zzz")]

/-- An answer set lacking the "creative" and "expert" ids. -/
def fourAnswers : List (Str × Str) :=
  [ (str "logic", str "foo-logic"),
    (str "technical", str "foo-technical"),
    (str "concise", str "foo-concise"),
    (str "friendly", str "foo-friendly") ]

/-- LogicBot streams one chunk and then raises mid-stream; the others finish
silently (the healthy counterpart is `runAScripts`). -/
def runCScripts : Str → Script :=
  fun k => if k = str "logic" then .run [str "a"] (some (str "boom")) else .run [] none

/-- One externally observable operation of the app, for the ledger-monotonicity
invariant.  `upload` and `index` never touch `tokens_used` and are omitted. -/
inductive Op where
  | streamOp (prompt : Str) (fileUrls : List Str) (scripts : Str → Script)
  | asklurkOp (answers : List (Str × Str)) (prompt : Str) (synth : Except Str Str)
  | tokensOp
  | resetOp

/-- The value of `tokens_used` after executing one operation from counter
value `t` (app.py: `generate` charges at lines 65/98, `/asklurk` charges at
line 166, `/reset-tokens` zeroes at line 227, `/tokens` only reads). -/
def appStep (t : Nat) : Op → Nat
  | .streamOp p f s => streamFinalTokens t (streamEndpoint t p f s)
  | .asklurkOp a p syn => (asklurk t a p syn).2.1
  | .tokensOp => t
  | .resetOp => 0

/-! ## Helper lemmas about the multiplexer -/

theorem muxPass_measure (l : List Gen) (t : Nat) :
    muxMeasure (muxPass l t).act + l.length = muxMeasure l := by
  induction l generalizing t with
  | nil => simp [muxPass, muxMeasure]
  | cons g more ih =>
    obtain ⟨b, steps⟩ := g
    cases steps with
    | nil =>
      have h := ih t
      simp only [muxPass, muxMeasure, List.map_cons, List.sum_cons, List.length_cons,
        List.length_nil] at h ⊢
      omega
    | cons s rest =>
      obtain ⟨c, ev⟩ := s
      have h := ih (t + c)
      simp only [muxPass, muxMeasure, List.map_cons, List.sum_cons, List.length_cons] at h ⊢
      omega

theorem muxPass_tok (l : List Gen) (t : Nat) :
    (muxPass l t).tok + totalCharges (muxPass l t).act = t + totalCharges l := by
  induction l generalizing t with
  | nil => simp [muxPass, totalCharges]
  | cons g more ih =>
    obtain ⟨b, steps⟩ := g
    cases steps with
    | nil =>
      have h := ih t
      simp only [muxPass, totalCharges, chargesSteps, List.map_nil, List.sum_nil] at h ⊢
      omega
    | cons s rest =>
      obtain ⟨c, ev⟩ := s
      have h := ih (t + c)
      simp only [muxPass, totalCharges, chargesSteps, List.map_cons, List.sum_cons] at h ⊢
      omega

theorem muxGo_tok (fuel : Nat) (l : List Gen) (t : Nat) (h : muxMeasure l ≤ fuel) :
    (muxGo fuel l t).tok = t + totalCharges l := by
  induction fuel generalizing l t with
  | zero =>
    have hl : l = [] := by
      cases l with
      | nil => rfl
      | cons g gs => simp [muxMeasure] at h
    subst hl
    simp [muxGo, totalCharges]
  | succ fuel ih =>
    cases l with
    | nil => simp [muxGo, totalCharges]
    | cons g gs =>
      have hm := muxPass_measure (g :: gs) t
      have hrec : muxMeasure (muxPass (g :: gs) t).act ≤ fuel := by
        simp only [List.length_cons] at hm
        omega
      have htok := muxPass_tok (g :: gs) t
      simp only [muxGo]
      rw [ih _ _ hrec]
      omega

theorem muxLoop_tok (l : List Gen) (t : Nat) :
    (muxLoop l t).tok = t + totalCharges l :=
  muxGo_tok _ l t (Nat.le_refl _)

theorem isTermFor_render (bot b : Str) (t : Nat) (ev : StepEv) :
    isTermFor bot (render b t ev) = (decide (b = bot) && isTermEv ev) := by
  cases ev <;> simp [render, isTermFor, isTermEv]

theorem countTermBot_cons (bot : Str) (e : Event) (es : List Event) :
    countTermBot bot (e :: es)
      = (if isTermFor bot e = true then 1 else 0) + countTermBot bot es := by
  simp only [countTermBot, List.filter_cons]
  by_cases h : isTermFor bot e = true <;> simp [h] <;> omega

theorem countTermBot_append (bot : Str) (es fs : List Event) :
    countTermBot bot (es ++ fs) = countTermBot bot es + countTermBot bot fs := by
  simp [countTermBot, List.filter_append]

theorem countTermSteps_cons (c : Nat) (ev : StepEv) (rest : List Step) :
    countTermSteps ((c, ev) :: rest)
      = (if isTermEv ev = true then 1 else 0) + countTermSteps rest := by
  simp only [countTermSteps, List.filter_cons]
  by_cases h : isTermEv ev = true <;> simp [h] <;> omega

theorem muxPass_term (bot : Str) (l : List Gen) (t : Nat) :
    countTermBot bot (muxPass l t).evs + sumTermBot bot (muxPass l t).act
      = sumTermBot bot l := by
  induction l generalizing t with
  | nil => simp [muxPass, countTermBot, sumTermBot]
  | cons g more ih =>
    obtain ⟨b, steps⟩ := g
    cases steps with
    | nil =>
      have h := ih t
      simp only [muxPass, sumTermBot, countTermSteps, List.filter_nil, List.length_nil,
        ite_self] at h ⊢
      omega
    | cons s rest =>
      obtain ⟨c, ev⟩ := s
      have h := ih (t + c)
      simp only [muxPass, sumTermBot, countTermBot_cons, countTermSteps_cons,
        isTermFor_render] at h ⊢
      by_cases hb : b = bot
      · subst hb
        cases hev : isTermEv ev <;> simp [hev] at h ⊢ <;> omega
      · simp [hb] at h ⊢
        omega

theorem muxGo_term (bot : Str) (fuel : Nat) (l : List Gen) (t : Nat)
    (h : muxMeasure l ≤ fuel) :
    countTermBot bot (muxGo fuel l t).evs = sumTermBot bot l := by
  induction fuel generalizing l t with
  | zero =>
    have hl : l = [] := by
      cases l with
      | nil => rfl
      | cons g gs => simp [muxMeasure] at h
    subst hl
    simp [muxGo, countTermBot, sumTermBot]
  | succ fuel ih =>
    cases l with
    | nil => simp [muxGo, countTermBot, sumTermBot]
    | cons g gs =>
      have hm := muxPass_measure (g :: gs) t
      have hrec : muxMeasure (muxPass (g :: gs) t).act ≤ fuel := by
        simp only [List.length_cons] at hm
        omega
      have hterm := muxPass_term bot (g :: gs) t
      simp only [muxGo, countTermBot_append]
      rw [ih _ _ hrec]
      omega

theorem muxLoop_term (bot : Str) (l : List Gen) (t : Nat) :
    countTermBot bot (muxLoop l t).evs = sumTermBot bot l :=
  muxGo_term bot _ l t (Nat.le_refl _)

theorem isAllDoneEv_render (b : Str) (t : Nat) (ev : StepEv) :
    isAllDoneEv (render b t ev) = false := by
  cases ev <;> simp [render, isAllDoneEv]

theorem countAllDone_append (es fs : List Event) :
    countAllDone (es ++ fs) = countAllDone es + countAllDone fs := by
  simp [countAllDone, List.filter_append]

theorem muxPass_allDone (l : List Gen) (t : Nat) :
    countAllDone (muxPass l t).evs = 0 := by
  induction l generalizing t with
  | nil => simp [muxPass, countAllDone]
  | cons g more ih =>
    obtain ⟨b, steps⟩ := g
    cases steps with
    | nil => simpa [muxPass] using ih t
    | cons s rest =>
      obtain ⟨c, ev⟩ := s
      have h := ih (t + c)
      simp only [muxPass, countAllDone, List.filter_cons, isAllDoneEv_render] at h ⊢
      simpa using h

theorem muxGo_allDone (fuel : Nat) (l : List Gen) (t : Nat) :
    countAllDone (muxGo fuel l t).evs = 0 := by
  induction fuel generalizing l t with
  | zero => simp [muxGo, countAllDone]
  | succ fuel ih =>
    cases l with
    | nil => simp [muxGo, countAllDone]
    | cons g gs =>
      simp only [muxGo, countAllDone_append]
      rw [ih]
      simpa using muxPass_allDone (g :: gs) t

theorem muxLoop_allDone (l : List Gen) (t : Nat) :
    countAllDone (muxLoop l t).evs = 0 :=
  muxGo_allDone _ l t

theorem eventKey_render (b : Str) (t : Nat) (ev : StepEv) :
    eventKey (render b t ev) = some (b, ev) := by
  cases ev <;> rfl

theorem botTrace_cons_render (bot b : Str) (t : Nat) (ev : StepEv) (es : List Event) :
    botTrace bot (render b t ev :: es)
      = (if b = bot then [ev] else []) ++ botTrace bot es := by
  simp only [botTrace, List.filterMap_cons, eventKey_render]
  by_cases h : b = bot <;> simp [h]

theorem botTrace_append (bot : Str) (es fs : List Event) :
    botTrace bot (es ++ fs) = botTrace bot es ++ botTrace bot fs := by
  simp [botTrace, List.filterMap_append]

theorem muxPass_keycount (bot : Str) (l : List Gen) (t : Nat) :
    countKey bot (muxPass l t).act ≤ countKey bot l := by
  induction l generalizing t with
  | nil => simp [muxPass, countKey]
  | cons g more ih =>
    obtain ⟨b, steps⟩ := g
    cases steps with
    | nil =>
      have h := ih t
      simp only [muxPass, countKey] at h ⊢
      omega
    | cons s rest =>
      obtain ⟨c, ev⟩ := s
      have h := ih (t + c)
      simp only [muxPass, countKey] at h ⊢
      omega

theorem botSteps_eq_nil (bot : Str) (l : List Gen) (h : countKey bot l = 0) :
    botSteps bot l = [] := by
  induction l with
  | nil => rfl
  | cons g more ih =>
    obtain ⟨b, steps⟩ := g
    by_cases hb : b = bot
    · simp [countKey, hb] at h
    · simp only [countKey, if_neg hb, Nat.zero_add] at h
      simp [botSteps, if_neg hb, ih h]

theorem muxPass_trace_zero (bot : Str) (l : List Gen) (t : Nat)
    (h : countKey bot l = 0) :
    botTrace bot (muxPass l t).evs = [] := by
  induction l generalizing t with
  | nil => simp [muxPass, botTrace]
  | cons g more ih =>
    obtain ⟨b, steps⟩ := g
    by_cases hb : b = bot
    · simp [countKey, hb] at h
    · simp only [countKey, if_neg hb, Nat.zero_add] at h
      cases steps with
      | nil => simpa [muxPass] using ih t h
      | cons s rest =>
        obtain ⟨c, ev⟩ := s
        simp only [muxPass, botTrace_cons_render, if_neg hb, List.nil_append]
        exact ih (t + c) h

theorem muxPass_trace (bot : Str) (l : List Gen) (t : Nat)
    (h : countKey bot l ≤ 1) :
    botTrace bot (muxPass l t).evs ++ botSteps bot (muxPass l t).act
      = botSteps bot l := by
  induction l generalizing t with
  | nil => simp [muxPass, botTrace, botSteps]
  | cons g more ih =>
    obtain ⟨b, steps⟩ := g
    cases steps with
    | nil =>
      have hmore : countKey bot more ≤ 1 := by
        simp only [countKey] at h
        omega
      have h2 := ih t hmore
      simp only [muxPass, botSteps] at h2 ⊢
      by_cases hb : b = bot <;> simp [hb, h2]
    | cons s rest =>
      obtain ⟨c, ev⟩ := s
      by_cases hb : b = bot
      · subst hb
        have hmore : countKey b more = 0 := by
          simp [countKey] at h
          omega
        have htr0 := muxPass_trace_zero b more (t + c) hmore
        have hst0 : botSteps b (muxPass more (t + c)).act = [] :=
          botSteps_eq_nil b _ (Nat.le_zero.mp
            ((muxPass_keycount b more (t + c)).trans hmore.le))
        simp only [muxPass, botTrace_cons_render, if_pos rfl, botSteps,
          botSteps_eq_nil b more hmore, htr0, hst0]
        simp
      · have hmore : countKey bot more ≤ 1 := by
          simp only [countKey] at h
          omega
        have h2 := ih (t + c) hmore
        simp only [muxPass, botTrace_cons_render, if_neg hb, botSteps,
          List.nil_append] at h2 ⊢
        simpa [hb] using h2

theorem muxGo_trace (bot : Str) (fuel : Nat) (l : List Gen) (t : Nat)
    (hf : muxMeasure l ≤ fuel) (h : countKey bot l ≤ 1) :
    botTrace bot (muxGo fuel l t).evs = botSteps bot l := by
  induction fuel generalizing l t with
  | zero =>
    have hl : l = [] := by
      cases l with
      | nil => rfl
      | cons g gs => simp [muxMeasure] at hf
    subst hl
    simp [muxGo, botTrace, botSteps]
  | succ fuel ih =>
    cases l with
    | nil => simp [muxGo, botTrace, botSteps]
    | cons g gs =>
      have hm := muxPass_measure (g :: gs) t
      have hrec : muxMeasure (muxPass (g :: gs) t).act ≤ fuel := by
        simp only [List.length_cons] at hm
        omega
      have hkey : countKey bot (muxPass (g :: gs) t).act ≤ 1 :=
        (muxPass_keycount bot (g :: gs) t).trans h
      simp only [muxGo, botTrace_append]
      rw [ih _ _ hrec hkey]
      exact muxPass_trace bot (g :: gs) t h

theorem muxLoop_trace (bot : Str) (l : List Gen) (t : Nat)
    (h : countKey bot l ≤ 1) :
    botTrace bot (muxLoop l t).evs = botSteps bot l :=
  muxGo_trace bot _ l t (Nat.le_refl _) h

/-! ### Keyed active lists built from a key list -/

theorem countKey_mapkeys_of_not_mem (bot : Str) (keys : List Str) (f : Str → List Step)
    (h : bot ∉ keys) :
    countKey bot (keys.map (fun k => (k, f k))) = 0 := by
  induction keys with
  | nil => rfl
  | cons k ks ih =>
    have hk : k ≠ bot := fun he => h (he ▸ List.mem_cons_self k ks)
    have hks : bot ∉ ks := fun hm => h (List.mem_cons_of_mem _ hm)
    simp [countKey, if_neg hk, ih hks]

theorem countKey_mapkeys_le_one (bot : Str) (keys : List Str) (f : Str → List Step)
    (h : keys.Nodup) :
    countKey bot (keys.map (fun k => (k, f k))) ≤ 1 := by
  induction keys with
  | nil => simp [countKey]
  | cons k ks ih =>
    rw [List.nodup_cons] at h
    by_cases hk : k = bot
    · subst hk
      simp [countKey, countKey_mapkeys_of_not_mem k ks f h.1]
    · have := ih h.2
      simp only [List.map_cons, countKey, if_neg hk]
      omega

theorem sumTermBot_mapkeys_of_not_mem (bot : Str) (keys : List Str) (f : Str → List Step)
    (h : bot ∉ keys) :
    sumTermBot bot (keys.map (fun k => (k, f k))) = 0 := by
  induction keys with
  | nil => rfl
  | cons k ks ih =>
    have hk : k ≠ bot := fun he => h (he ▸ List.mem_cons_self k ks)
    have hks : bot ∉ ks := fun hm => h (List.mem_cons_of_mem _ hm)
    simp [sumTermBot, if_neg hk, ih hks]

theorem sumTermBot_mapkeys_of_mem (bot : Str) (keys : List Str) (f : Str → List Step)
    (hnd : keys.Nodup) (hmem : bot ∈ keys) :
    sumTermBot bot (keys.map (fun k => (k, f k))) = countTermSteps (f bot) := by
  induction keys with
  | nil => cases hmem
  | cons k ks ih =>
    rw [List.nodup_cons] at hnd
    by_cases hk : k = bot
    · subst hk
      simp [sumTermBot, sumTermBot_mapkeys_of_not_mem k ks f hnd.1]
    · have hmem2 : bot ∈ ks := by
        cases hmem with
        | head => exact absurd rfl hk
        | tail _ hm => exact hm
      simp [sumTermBot, if_neg hk, ih hnd.2 hmem2]

theorem botSteps_mapkeys_of_not_mem (bot : Str) (keys : List Str) (f : Str → List Step)
    (h : bot ∉ keys) :
    botSteps bot (keys.map (fun k => (k, f k))) = [] := by
  induction keys with
  | nil => rfl
  | cons k ks ih =>
    have hk : k ≠ bot := fun he => h (he ▸ List.mem_cons_self k ks)
    have hks : bot ∉ ks := fun hm => h (List.mem_cons_of_mem _ hm)
    simp [botSteps, if_neg hk, ih hks]

theorem botSteps_mapkeys_of_mem (bot : Str) (keys : List Str) (f : Str → List Step)
    (hnd : keys.Nodup) (hmem : bot ∈ keys) :
    botSteps bot (keys.map (fun k => (k, f k))) = (f bot).map Prod.snd := by
  induction keys with
  | nil => cases hmem
  | cons k ks ih =>
    rw [List.nodup_cons] at hnd
    by_cases hk : k = bot
    · subst hk
      simp [botSteps, botSteps_mapkeys_of_not_mem k ks f hnd.1]
    · have hmem2 : bot ∈ ks := by
        cases hmem with
        | head => exact absurd rfl hk
        | tail _ hm => exact hm
      simp [botSteps, if_neg hk, ih hnd.2 hmem2]

theorem modelKeys_nodup : modelKeys.Nodup := by decide

/-! ### Shape facts about `genSteps` -/

theorem countTermSteps_append (xs ys : List Step) :
    countTermSteps (xs ++ ys) = countTermSteps xs + countTermSteps ys := by
  simp [countTermSteps, List.filter_append]

theorem countTermSteps_deltas (cs : List Str) :
    countTermSteps (cs.map (fun x => ((0 : Nat), StepEv.delta x))) = 0 := by
  induction cs with
  | nil => rfl
  | cons c cs ih => simpa [countTermSteps_cons, isTermEv] using ih

theorem genSteps_term (p : Nat) (s : Script) :
    countTermSteps (genSteps p s) = 1 := by
  cases s with
  | earlyFault m => rfl
  | run chunks fault =>
    cases chunks with
    | nil => cases fault <;> rfl
    | cons c cs =>
      cases fault with
      | none =>
        simp [genSteps, countTermSteps_cons, isTermEv, countTermSteps_append,
          countTermSteps_deltas, countTermSteps]
      | some m =>
        simp [genSteps, countTermSteps_cons, isTermEv, countTermSteps_append,
          countTermSteps_deltas, countTermSteps]

theorem genSteps_snd_run_none (p : Nat) (chunks : List Str) :
    (genSteps p (.run chunks none)).map Prod.snd
      = chunks.map StepEv.delta ++ [StepEv.done] := by
  cases chunks with
  | nil => rfl
  | cons c cs => simp [genSteps, List.map_append, Function.comp]

theorem genSteps_snd_run_fault (p : Nat) (chunks : List Str) (m : Str) :
    (genSteps p (.run chunks (some m))).map Prod.snd
      = chunks.map StepEv.delta ++ [StepEv.error m] := by
  cases chunks with
  | nil => rfl
  | cons c cs => simp [genSteps, List.map_append, Function.comp]

theorem genSteps_snd_earlyFault (p : Nat) (m : Str) :
    (genSteps p (.earlyFault m)).map Prod.snd = [StepEv.error m] := rfl

/-! ### Dispatch-level consequences -/

theorem dispatch_countTerm (full : Str) (scripts : Str → Script) (used : Nat)
    (bot : Str) (hmem : bot ∈ modelKeys) :
    countTermBot bot (dispatchEvents full scripts used) = 1 := by
  unfold dispatchEvents
  rw [countTermBot_append]
  have h1 : countTermBot bot [Event.allDone (muxLoop (initGens full scripts) used).tok] = 0 := by
    simp [countTermBot, isTermFor]
  rw [h1, muxLoop_term]
  unfold initGens
  rw [sumTermBot_mapkeys_of_mem bot modelKeys _ modelKeys_nodup hmem, genSteps_term]

theorem dispatch_allDone_count (full : Str) (scripts : Str → Script) (used : Nat) :
    countAllDone (dispatchEvents full scripts used) = 1 := by
  unfold dispatchEvents
  rw [countAllDone_append, muxLoop_allDone]
  simp [countAllDone, isAllDoneEv]

theorem dispatch_trace (full : Str) (scripts : Str → Script) (used : Nat) (bot : Str) :
    botTrace bot (dispatchEvents full scripts used)
      = botSteps bot (initGens full scripts) := by
  unfold dispatchEvents
  rw [botTrace_append]
  have h1 : botTrace bot [Event.allDone (muxLoop (initGens full scripts) used).tok] = [] := by
    simp [botTrace, eventKey]
  rw [h1, List.append_nil]
  apply muxLoop_trace
  unfold initGens
  exact countKey_mapkeys_le_one bot modelKeys _ modelKeys_nodup

theorem dispatch_trace_mem (full : Str) (scripts : Str → Script) (used : Nat)
    (bot : Str) (hmem : bot ∈ modelKeys) :
    botTrace bot (dispatchEvents full scripts used)
      = (genSteps (promptCostOf bot full) (scripts bot)).map Prod.snd := by
  rw [dispatch_trace]
  unfold initGens
  exact botSteps_mapkeys_of_mem bot modelKeys _ modelKeys_nodup hmem

theorem dispatch_trace_not_mem (full : Str) (scripts : Str → Script) (used : Nat)
    (bot : Str) (hmem : bot ∉ modelKeys) :
    botTrace bot (dispatchEvents full scripts used) = [] := by
  rw [dispatch_trace]
  unfold initGens
  exact botSteps_mapkeys_of_not_mem bot modelKeys _ hmem

/-- An admitted, nonempty `/stream` request streams: its response is the merged
event stream followed by the all-complete marker. -/
theorem streamEndpointL_streams (limit used : Nat) (prompt : Str) (fileUrls : List Str)
    (scripts : Str → Script) (h : used < limit)
    (hne : (prompt.isEmpty && fileUrls.isEmpty) = false) :
    streamEndpointL limit used prompt fileUrls scripts
      = .okStream (dispatchEvents (fullPromptOf prompt fileUrls) scripts used)
          (muxLoop (initGens (fullPromptOf prompt fileUrls) scripts) used).tok
          modelKeys.length := by
  unfold streamEndpointL dispatchEvents
  simp [hne, Nat.not_le.mpr h]

/-! ### Substring helpers -/

theorem SegIn.prepend (u : Str) {pat s : Str} (h : SegIn pat s) : SegIn pat (u ++ s) := by
  obtain ⟨a, b, hab⟩ := h
  exact ⟨u ++ a, b, by rw [hab, List.append_assoc]⟩

theorem SegIn.drop_front {u pat s : Str} (h : SegIn (u ++ pat) s) : SegIn pat s := by
  obtain ⟨a, b, hab⟩ := h
  exact ⟨a ++ u, b, by rw [hab]; simp [List.append_assoc]⟩

/-! ### Fallback-path helpers -/

theorem lookup_isSome_of_mem_keys {α : Type} (k : Str) (l : List (Str × α))
    (h : k ∈ l.map Prod.fst) : (lookupStr k l).isSome = true := by
  induction l with
  | nil => simp at h
  | cons kv rest ih =>
    obtain ⟨k2, v⟩ := kv
    by_cases hk : k2 = k
    · simp [lookupStr, hk]
    · simp only [List.map_cons, List.mem_cons] at h
      rcases h with h | h
      · exact absurd h.symm hk
      · simpa [lookupStr, hk] using ih h

theorem fallbackEntries_isSome (answers : List (Str × Str))
    (hdom : ∀ kv ∈ answers, kv.1 ∈ modelKeys) :
    ∃ s, fallbackEntries answers = some s := by
  induction answers with
  | nil => exact ⟨[], rfl⟩
  | cons kv rest ih =>
    obtain ⟨k, txt⟩ := kv
    have hk : k ∈ MODELS.map Prod.fst := hdom (k, txt) (List.mem_cons_self _ _)
    obtain ⟨info, hinfo⟩ :=
      Option.isSome_iff_exists.mp (lookup_isSome_of_mem_keys k MODELS hk)
    obtain ⟨s, hs⟩ := ih (fun kv h => hdom kv (List.mem_cons_of_mem _ h))
    exact ⟨excerpt info txt s, by simp [fallbackEntries, hinfo, hs]⟩

theorem fallbackEntries_seg (answers : List (Str × Str)) (s : Str)
    (hs : fallbackEntries answers = some s) (k txt : Str) (hmem : (k, txt) ∈ answers) :
    SegIn (str "**" ++ (nameOf k ++ (str "**: " ++ txt.take 200))) s := by
  induction answers generalizing s with
  | nil => cases hmem
  | cons kv rest ih =>
    obtain ⟨k2, txt2⟩ := kv
    cases hl : lookupStr k2 MODELS with
    | none => simp [fallbackEntries, hl] at hs
    | some info =>
      cases hr : fallbackEntries rest with
      | none => simp [fallbackEntries, hl, hr] at hs
      | some s2 =>
        have hs2 : s = excerpt info txt2 s2 := by
          simp [fallbackEntries, hl, hr] at hs
          exact hs.symm
        subst hs2
        rcases List.mem_cons.mp hmem with he | hm
        · have hk : k = k2 := congrArg Prod.fst he
          have ht : txt = txt2 := congrArg Prod.snd he
          subst hk
          subst ht
          refine ⟨[], str "...\n\n" ++ s2, ?_⟩
          simp [excerpt, nameOf, hl, List.append_assoc]
        · have h2 := ih s2 hr hm
          have h3 := ((((h2.prepend (str "...\n\n")).prepend (txt2.take 200)).prepend
            (str "**: ")).prepend info.name).prepend (str "**")
          simpa [excerpt] using h3

/-! ## Claim theorems -/

/-- C1 counterexample: a dispatch whose estimated cost (spec: proportional to
prompt length) plus the current used value exceeds the token limit is NOT
refused by the code — `/stream` only compares `tokens_used` itself against
`TOKEN_LIMIT` — and all six provider units are started. -/
theorem c1_counterexample :
    TOKEN_LIMIT < 0 + estimatedCost bigPrompt [] ∧
    isRefusedS (streamEndpoint 0 bigPrompt [] quietScripts) = false ∧
    adapterCallsOf (streamEndpoint 0 bigPrompt [] quietScripts) = 6 := by
  have hne : (bigPrompt.isEmpty && ([] : List Str).isEmpty) = false := rfl
  have hadm : streamEndpoint 0 bigPrompt [] quietScripts
      = .okStream (dispatchEvents (fullPromptOf bigPrompt []) quietScripts 0)
          (muxLoop (initGens (fullPromptOf bigPrompt []) quietScripts) 0).tok
          modelKeys.length :=
    streamEndpointL_streams TOKEN_LIMIT 0 bigPrompt [] quietScripts (by decide) hne
  refine ⟨?_, ?_, ?_⟩
  · have hest : estimatedCost bigPrompt [] = 300001 := by
      have h1 : fullPromptOf bigPrompt [] = bigPrompt := rfl
      unfold estimatedCost
      rw [h1]
      show ('x' :: List.replicate 300000 'a').length = 300001
      rw [List.length_cons, List.length_replicate]
    rw [hest]
    decide
  · rw [hadm]
    rfl
  · rw [hadm]
    rfl

/-- C1 (amended): `/stream` admission is refused exactly when `tokens_used` has
already reached `TOKEN_LIMIT` — the estimated request cost plays no part; on
refusal the caller gets the single 429 error, zero events are emitted and zero
provider units are started. -/
theorem c1_theorem (used : Nat) (prompt : Str) (fileUrls : List Str)
    (scripts : Str → Script)
    (hne : (prompt.isEmpty && fileUrls.isEmpty) = false) :
    (isRefusedS (streamEndpoint used prompt fileUrls scripts) = true ↔ TOKEN_LIMIT ≤ used) ∧
    (TOKEN_LIMIT ≤ used →
      streamEndpoint used prompt fileUrls scripts = .tooMany (tooManyMsg used TOKEN_LIMIT) ∧
      eventsOf (streamEndpoint used prompt fileUrls scripts) = [] ∧
      adapterCallsOf (streamEndpoint used prompt fileUrls scripts) = 0) := by
  unfold streamEndpoint streamEndpointL
  by_cases h : TOKEN_LIMIT ≤ used
  · simp [hne, h, isRefusedS, eventsOf, adapterCallsOf]
  · simp [hne, h, isRefusedS]

theorem c1_witness :
    ((str "hi").isEmpty && ([] : List Str).isEmpty) = false ∧
    ((isRefusedS (streamEndpoint TOKEN_LIMIT (str "hi") [] quietScripts) = true ↔
        TOKEN_LIMIT ≤ TOKEN_LIMIT) ∧
      (TOKEN_LIMIT ≤ TOKEN_LIMIT →
        streamEndpoint TOKEN_LIMIT (str "hi") [] quietScripts
          = .tooMany (tooManyMsg TOKEN_LIMIT TOKEN_LIMIT) ∧
        eventsOf (streamEndpoint TOKEN_LIMIT (str "hi") [] quietScripts) = [] ∧
        adapterCallsOf (streamEndpoint TOKEN_LIMIT (str "hi") [] quietScripts) = 0)) :=
  ⟨by decide, c1_theorem TOKEN_LIMIT (str "hi") [] quietScripts (by decide)⟩

/-- C2: the unsynchronized `tokens_used += c` (load, add, store) allows an
interleaving of two concurrent charges of 1 each from prior value 0 in which
one increment is lost: the counter ends at 1, not at 0 + (1 + 1), even though
the schedule is a legitimate interleaving of the two updates (a serial
schedule of the same charges does end at 2). -/
theorem c2_theorem :
    isInterleaving 2 lostSched = true ∧
    isInterleaving 2 serialSched = true ∧
    (rmwExec [1, 1] lostSched ⟨0, [none, none]⟩).used = 1 ∧
    (rmwExec [1, 1] serialSched ⟨0, [none, none]⟩).used = 0 + (1 + 1) ∧
    (1 : Nat) ≠ 0 + (1 + 1) := by decide

/-- C3 counterexample: a turn admitted at `tokens_used = 299999` crosses the
300000 limit at the very first provider's charge (the first done event already
reports 300699), yet five more done events follow — new work keeps being
started after the ledger is over the limit — and the stream ends with the
ordinary all_done marker (the code has no budget-exceeded marker at all). -/
theorem c3_counterexample :
    isRefusedS (streamEndpoint 299999 (str "hi") [] okRunScripts) = false ∧
    (eventsOf (streamEndpoint 299999 (str "hi") [] okRunScripts)).get? 6
      = some (.done (str "logic") 300699) ∧
    TOKEN_LIMIT < 300699 ∧
    (((eventsOf (streamEndpoint 299999 (str "hi") [] okRunScripts)).drop 7).filter
        isDoneEv).length = 5 ∧
    (eventsOf (streamEndpoint 299999 (str "hi") [] okRunScripts)).getLast?
      = some (.allDone 300709) := by decide

/-- C3 (amended): the ledger limit is never consulted once a turn is admitted:
the emitted event stream is identical under any two admitting limits, every
provider is drained to its terminal event regardless of mid-turn budget
exhaustion, and the single terminal marker is the ordinary all_done marker. -/
theorem c3_theorem (limit1 limit2 used : Nat) (prompt : Str) (fileUrls : List Str)
    (scripts : Str → Script)
    (h1 : used < limit1) (h2 : used < limit2)
    (hne : (prompt.isEmpty && fileUrls.isEmpty) = false) :
    eventsOf (streamEndpointL limit1 used prompt fileUrls scripts)
      = eventsOf (streamEndpointL limit2 used prompt fileUrls scripts) ∧
    eventsOf (streamEndpointL limit1 used prompt fileUrls scripts)
      = dispatchEvents (fullPromptOf prompt fileUrls) scripts used ∧
    countAllDone (dispatchEvents (fullPromptOf prompt fileUrls) scripts used) = 1 ∧
    (∀ bot, bot ∈ modelKeys →
      countTermBot bot (dispatchEvents (fullPromptOf prompt fileUrls) scripts used) = 1) := by
  rw [streamEndpointL_streams limit1 used prompt fileUrls scripts h1 hne,
    streamEndpointL_streams limit2 used prompt fileUrls scripts h2 hne]
  refine ⟨rfl, rfl, dispatch_allDone_count _ _ _, ?_⟩
  intro bot hmem
  exact dispatch_countTerm _ _ _ bot hmem

/-- C4: a `/asklurk` request whose answers mapping lacks at least one of the
six configured model ids gets the 400 response with empty `best`, an error
message naming exactly the missing ids (in configuration order), and no
synthesis backend call. -/
theorem c4_theorem (tokens : Nat) (answers : List (Str × Str)) (prompt : Str)
    (synth : Except Str Str)
    (h : missingModels answers ≠ []) :
    asklurk tokens answers prompt synth
      = (.badRequest []
          (str "Missing responses from: "
            ++ List.intercalate (str ", ") (missingModels answers)),
        tokens, false) := by
  unfold asklurk
  simp [h]

theorem c4_witness :
    missingModels fourAnswers ≠ [] ∧
    asklurk 7 fourAnswers (str "q") (.ok (str "b"))
      = (.badRequest []
          (str "Missing responses from: "
            ++ List.intercalate (str ", ") (missingModels fourAnswers)),
        7, false) :=
  ⟨by decide, c4_theorem 7 fourAnswers (str "q") (.ok (str "b")) (by decide)⟩

/-- C5: for every complete answer set (keys are exactly the provider ids), a
failing synthesis backend yields the 200 fallback response — no exception
surfaces — with the error field set and a deterministic combined `best` in
which every provider's answer, truncated to its first 200 characters and
labeled with the provider's display name, occurs as a substring. -/
theorem c5_theorem (tokens : Nat) (answers : List (Str × Str)) (prompt e : Str)
    (hcomp : missingModels answers = [])
    (hdom : ∀ kv ∈ answers, kv.1 ∈ modelKeys) :
    ∃ combined,
      asklurk tokens answers prompt (.error e)
        = (.okFallback combined (str "AI synthesis failed, using combined view"),
          tokens, true) ∧
      ∀ kv ∈ answers,
        SegIn (str "**" ++ (nameOf kv.1 ++ (str "**: " ++ kv.2.take 200))) combined ∧
        SegIn (kv.2.take 200) combined := by
  obtain ⟨s, hs⟩ := fallbackEntries_isSome answers hdom
  refine ⟨str "## AskLurk Synthesis\n\nBased on analysis of 6 AI models:\n\n" ++ s, ?_, ?_⟩
  · unfold asklurk fallbackCombined
    simp [hcomp, hs]
  · intro kv hkv
    have hseg := fallbackEntries_seg answers s hs kv.1 kv.2 (by simpa using hkv)
    exact ⟨hseg.prepend _, (hseg.drop_front.drop_front.drop_front).prepend _⟩

theorem c5_witness :
    missingModels sixAnswers = [] ∧ (∀ kv ∈ sixAnswers, kv.1 ∈ modelKeys) ∧
    (∃ combined,
      asklurk 3 sixAnswers (str "q") (.error (str "down"))
        = (.okFallback combined (str "AI synthesis failed, using combined view"),
          3, true) ∧
      ∀ kv ∈ sixAnswers,
        SegIn (str "**" ++ (nameOf kv.1 ++ (str "**: " ++ kv.2.take 200))) combined ∧
        SegIn (kv.2.take 200) combined) :=
  ⟨by decide, by decide,
    c5_theorem 3 sixAnswers (str "q") (str "down") (by decide) (by decide)⟩

/-- C6 counterexample: the all-complete marker does not carry the ledger's
`remaining()` value: in a run that charges nothing the marker carries the used
value 0 while `remaining_tokens` at that moment is 300000. -/
theorem c6_counterexample :
    (eventsOf (streamEndpoint 0 (str "hi") [] allFaultScripts)).getLast?
      = some (.allDone 0) ∧
    remainingTokens 0 = 300000 ∧
    (0 : Nat) ≠ 300000 := by decide

/-- C6 (amended): for every admitted dispatch, the merged stream carries
exactly one Done-or-Error terminal event per provider, followed by exactly one
all-complete marker which is the last event and carries the then-current
ledger **used** value (the entry value plus all charges of the turn) — not
`remaining()`. -/
theorem c6_theorem (used : Nat) (prompt : Str) (fileUrls : List Str)
    (scripts : Str → Script)
    (hadm : used < TOKEN_LIMIT)
    (hne : (prompt.isEmpty && fileUrls.isEmpty) = false) :
    ∃ body tf,
      streamEndpoint used prompt fileUrls scripts
        = .okStream (body ++ [.allDone tf]) tf modelKeys.length ∧
      countAllDone body = 0 ∧
      (∀ bot, bot ∈ modelKeys → countTermBot bot (body ++ [.allDone tf]) = 1) ∧
      tf = used + totalCharges (initGens (fullPromptOf prompt fileUrls) scripts) := by
  refine ⟨(muxLoop (initGens (fullPromptOf prompt fileUrls) scripts) used).evs,
    (muxLoop (initGens (fullPromptOf prompt fileUrls) scripts) used).tok, ?_, ?_, ?_, ?_⟩
  · exact streamEndpointL_streams TOKEN_LIMIT used prompt fileUrls scripts hadm hne
  · exact muxLoop_allDone _ _
  · intro bot hmem
    exact dispatch_countTerm (fullPromptOf prompt fileUrls) scripts used bot hmem
  · exact muxLoop_tok _ _

theorem c6_witness :
    0 < TOKEN_LIMIT ∧ ((str "hi").isEmpty && ([] : List Str).isEmpty) = false ∧
    (∃ body tf,
      streamEndpoint 0 (str "hi") [] okRunScripts
        = .okStream (body ++ [.allDone tf]) tf modelKeys.length ∧
      countAllDone body = 0 ∧
      (∀ bot, bot ∈ modelKeys → countTermBot bot (body ++ [.allDone tf]) = 1) ∧
      tf = 0 + totalCharges (initGens (fullPromptOf (str "hi") []) okRunScripts)) :=
  ⟨by decide, by decide,
    c6_theorem 0 (str "hi") [] okRunScripts (by decide) (by decide)⟩

/-- C7 counterexample: sibling providers' events are NOT byte-identical when a
provider faults: a sibling's done event embeds the global `tokens_used`, which
includes the faulting provider's charges, so CreativeBot's done event differs
between the healthy run (224) and the run where LogicBot faults early (107)
even though CreativeBot's own script is unchanged. -/
theorem c7_counterexample :
    runAScripts (str "creative") = runBScripts (str "creative") ∧
    rawBotEvents (str "creative") (dispatchEvents (str "p") runAScripts 0)
      = [.done (str "creative") 224] ∧
    rawBotEvents (str "creative") (dispatchEvents (str "p") runBScripts 0)
      = [.done (str "creative") 107] ∧
    ¬ rawBotEvents (str "creative") (dispatchEvents (str "p") runAScripts 0)
      = rawBotEvents (str "creative") (dispatchEvents (str "p") runBScripts 0) := by decide

/-- C7 (amended): a provider raising mid-generation surfaces as a single Error
event terminating that provider's event sequence; every other provider's event
sequence — up to the global-counter payload embedded in done events — is
unchanged in content and per-provider order, and non-faulting providers end in
done, not error. -/
theorem c7_theorem (scripts scripts2 : Str → Script) (p : Str) (chunks : List Str)
    (msg full : Str) (used used2 : Nat)
    (hp : scripts p = .run chunks (some msg))
    (hagree : ∀ q, q ≠ p → scripts q = scripts2 q)
    (hpmem : p ∈ modelKeys) :
    botTrace p (dispatchEvents full scripts used)
      = chunks.map StepEv.delta ++ [StepEv.error msg] ∧
    (∀ q, q ≠ p →
      botTrace q (dispatchEvents full scripts used)
        = botTrace q (dispatchEvents full scripts2 used2)) ∧
    (∀ q, q ∈ modelKeys → q ≠ p → ∀ ch, scripts q = .run ch none →
      botTrace q (dispatchEvents full scripts used)
        = ch.map StepEv.delta ++ [StepEv.done]) := by
  refine ⟨?_, ?_, ?_⟩
  · rw [dispatch_trace_mem full scripts used p hpmem, hp, genSteps_snd_run_fault]
  · intro q hq
    by_cases hm : q ∈ modelKeys
    · rw [dispatch_trace_mem full scripts used q hm,
        dispatch_trace_mem full scripts2 used2 q hm, hagree q hq]
    · rw [dispatch_trace_not_mem full scripts used q hm,
        dispatch_trace_not_mem full scripts2 used2 q hm]
  · intro q hm hq ch hch
    rw [dispatch_trace_mem full scripts used q hm, hch, genSteps_snd_run_none]

theorem c7_witness :
    runCScripts (str "logic") = .run [str "a"] (some (str "boom")) ∧
    (∀ q, q ≠ str "logic" → runCScripts q = runAScripts q) ∧
    str "logic" ∈ modelKeys ∧
    (botTrace (str "logic") (dispatchEvents (str "p") runCScripts 0)
        = [str "a"].map StepEv.delta ++ [StepEv.error (str "boom")] ∧
      (∀ q, q ≠ str "logic" →
        botTrace q (dispatchEvents (str "p") runCScripts 0)
          = botTrace q (dispatchEvents (str "p") runAScripts 5)) ∧
      (∀ q, q ∈ modelKeys → q ≠ str "logic" → ∀ ch, runCScripts q = .run ch none →
        botTrace q (dispatchEvents (str "p") runCScripts 0)
          = ch.map StepEv.delta ++ [StepEv.done])) :=
  ⟨by decide, fun q hq => by simp [runCScripts, runAScripts, hq], by decide,
    c7_theorem runCScripts runAScripts (str "logic") [str "a"] (str "boom") (str "p") 0 5
      (by decide) (fun q hq => by simp [runCScripts, runAScripts, hq]) (by decide)⟩

/-- C8: `tokens_used` is monotonically non-decreasing across every operation of
the app — stream turns and synthesis only add non-negative charges, `/tokens`
only reads — and the only operation that lowers it is the administrative
`/reset-tokens`, which sets it to exactly 0. -/
theorem c8_theorem (t : Nat) (op : Op) :
    (match op with
     | .resetOp => appStep t op = 0
     | _ => t ≤ appStep t op) := by
  cases op with
  | streamOp p f s =>
    show t ≤ streamFinalTokens t (streamEndpoint t p f s)
    unfold streamEndpoint streamEndpointL
    split
    · exact Nat.le_refl t
    · split
      · exact Nat.le_refl t
      · show t ≤ (muxLoop (initGens (fullPromptOf p f) s) t).tok
        rw [muxLoop_tok]
        exact Nat.le_add_right _ _
  | asklurkOp a p syn =>
    show t ≤ (asklurk t a p syn).2.1
    unfold asklurk
    by_cases hm : missingModels a = []
    · cases syn with
      | ok best =>
        simp only [hm, if_pos]
        exact Nat.le_add_right _ _
      | error e =>
        cases hfb : fallbackCombined a with
        | some c => simp [hm, hfb]
        | none => simp [hm, hfb]
    · simp [hm]
  | tokensOp => exact Nat.le_refl t
  | resetOp => rfl

/-- C9: the used counter is never clamped to the limit: `/stream` admission
refuses exactly when `tokens_used ≥ TOKEN_LIMIT`, while charges of an admitted
turn accrue unconditionally, so the run entering at 299999 ends at
300709 > TOKEN_LIMIT and `GET /tokens` then reports a negative
`remaining_tokens`. -/
theorem c9_theorem (used : Nat) (prompt : Str) (fileUrls : List Str)
    (scripts : Str → Script)
    (hne : (prompt.isEmpty && fileUrls.isEmpty) = false) :
    (isRefusedS (streamEndpoint used prompt fileUrls scripts) = true ↔ TOKEN_LIMIT ≤ used) ∧
    isRefusedS (streamEndpoint 299999 (str "hi") [] okRunScripts) = false ∧
    streamFinalTokens 299999 (streamEndpoint 299999 (str "hi") [] okRunScripts) = 300709 ∧
    TOKEN_LIMIT < 300709 ∧
    remainingTokens 300709 < 0 := by
  refine ⟨?_, by decide, by decide, by decide, by decide⟩
  unfold streamEndpoint streamEndpointL
  by_cases h : TOKEN_LIMIT ≤ used
  · simp [hne, h, isRefusedS]
  · simp [hne, h, isRefusedS]

theorem c9_witness :
    ((str "hi").isEmpty && ([] : List Str).isEmpty) = false ∧
    ((isRefusedS (streamEndpoint 0 (str "hi") [] okRunScripts) = true ↔ TOKEN_LIMIT ≤ 0) ∧
      isRefusedS (streamEndpoint 299999 (str "hi") [] okRunScripts) = false ∧
      streamFinalTokens 299999 (streamEndpoint 299999 (str "hi") [] okRunScripts) = 300709 ∧
      TOKEN_LIMIT < 300709 ∧
      remainingTokens 300709 < 0) :=
  ⟨by decide, c9_theorem 0 (str "hi") [] okRunScripts (by decide)⟩

/-- C10: the completeness check only tests for missing ids, so an answers
mapping with all six ids plus the unknown key "mystery" is accepted; on a
successful synthesis the extra key is silently ignored (same response as
without it), but on synthesis failure the fallback's `MODELS["mystery"]` lookup
raises an uncaught KeyError, so the handler crashes instead of returning the
fallback-combined response. -/
theorem c10_theorem :
    missingModels extraAnswers = [] ∧
    asklurk 0 extraAnswers (str "q") (.ok (str "best"))
      = (.okSynth (str "best") 4, 4, true) ∧
    (asklurk 0 extraAnswers (str "q") (.ok (str "best"))).1
      = (asklurk 0 sixAnswers (str "q") (.ok (str "best"))).1 ∧
    fallbackCombined extraAnswers = none ∧
    (asklurk 0 extraAnswers (str "q") (.error (str "boom"))).1 = AskResp.crash := by decide

theorem c3_witness :
    0 < TOKEN_LIMIT ∧ 0 < 7 ∧ ((str "hi").isEmpty && ([] : List Str).isEmpty) = false ∧
    (eventsOf (streamEndpointL TOKEN_LIMIT 0 (str "hi") [] okRunScripts)
        = eventsOf (streamEndpointL 7 0 (str "hi") [] okRunScripts) ∧
      eventsOf (streamEndpointL TOKEN_LIMIT 0 (str "hi") [] okRunScripts)
        = dispatchEvents (fullPromptOf (str "hi") []) okRunScripts 0 ∧
      countAllDone (dispatchEvents (fullPromptOf (str "hi") []) okRunScripts 0) = 1 ∧
      (∀ bot, bot ∈ modelKeys →
        countTermBot bot (dispatchEvents (fullPromptOf (str "hi") []) okRunScripts 0) = 1)) :=
  ⟨by decide, by decide, by decide,
    c3_theorem TOKEN_LIMIT 7 0 (str "hi") [] okRunScripts (by decide) (by decide) (by decide)⟩

end AskLurk
